import Mathlib

/-!
# Verification of the playground session poller and URL helpers

A shallow embedding of `src/client/shared/utils.ts` (the `waitForSession`
polling loop, `buildRedirectUrl` / `getSessionFromUrl`) and of the Express
handler for `GET /api/session/:id` in `src/client/job-portal/app.ts`.

Modelling conventions:
* A JavaScript `Session` object is a structure; its `status` field is a
  plain string, because at runtime the backend may send any string — the
  TypeScript union type is not enforced at runtime.
* The injected status fetcher is a function from the fetch index to
  either a `Session` or a thrown transport-error value.  The `onUpdate`
  observer is an optional function that, at each invocation, either
  returns normally or throws a value.
* Wall-clock time: `startTime = Date.now()` at entry; the `j`-th fetch
  (plus its observer call) takes `fdur j` milliseconds, and the sleep via
  `setTimeout` takes exactly `interval` milliseconds, so the value of
  `Date.now() - startTime` at the top-of-loop check before fetch `j` is
  `elapsedAt fdur interval j`.
* The `while` loop is given explicit fuel to make it total; theorems
  assume enough fuel, and `.diverged` marks exhaustion.
* JavaScript exceptions become an explicit result constructor: values
  thrown by the fetcher or the observer propagate as `.ext`, and
  `new Error(msg)` created inside `waitForSession` becomes `.errorMsg msg`.
-/

namespace Playground

/-- A backend session as seen by the browser code
(`interface Session` in `src/client/shared/utils.ts`).
Claim values are modelled as string-to-string maps. -/
structure Session where
  sessionId : String
  status : String
  presentation : Option (List (String × String))
  credentials : Option (List (List (String × String)))
deriving Repr, DecidableEq

/-- One invocation of the injected status fetcher: either a `Session`
(the JSON response of `getSessionStatus`) or a thrown value `e`. -/
inductive FetchResult (ε : Type) where
  | ok (s : Session)
  | err (e : ε)
deriving Repr, DecidableEq

/-- A JavaScript value thrown out of `waitForSession`: either a value
thrown by the fetcher or the observer, propagated as-is, or an `Error`
constructed inside the loop, identified by its message string. -/
inductive Thrown (ε : Type) where
  | ext (e : ε)
  | errorMsg (msg : String)
deriving Repr, DecidableEq

/-- How one call to `waitForSession` ends: the promise resolves with a
session, rejects with a thrown value, or the model ran out of fuel. -/
inductive PollResult (ε : Type) where
  | returned (s : Session)
  | threw (e : Thrown ε)
  | diverged
deriving Repr, DecidableEq

/-- A complete run of the poller: its result, the list of sessions passed
to `onUpdate` in invocation order, and the number of fetches issued. -/
structure PollRun (ε : Type) where
  result : PollResult ε
  notified : List Session
  fetches : Nat
deriving Repr, DecidableEq

/-- `session.status === 'completed' || session.status === 'fetched'`
(line 242 of `src/client/shared/utils.ts`). -/
def isTerminalSuccess (st : String) : Bool :=
  st == "completed" || st == "fetched"

/-- `session.status === 'failed' || session.status === 'expired'`
(line 246 of `src/client/shared/utils.ts`). -/
def isTerminalFailure (st : String) : Bool :=
  st == "failed" || st == "expired"

/-- The observer slot: `onUpdate` is optional; when present, invocation
`j` on session `s` yields `some e` exactly when the observer throws `e`. -/
def ObsSpec (ε : Type) : Type := Option (Nat → Session → Option ε)

/-- `if (onUpdate) onUpdate(session)`: the sessions handed to the
observer by one invocation, and the value it throws, if any. -/
def invokeObserver {ε : Type} (onUpdate : ObsSpec ε) (j : Nat) (s : Session) :
    List Session × Option ε :=
  match onUpdate with
  | none => ([], none)
  | some f => ([s], f j s)

/-- The body of `waitForSession` (lines 227–254 of
`src/client/shared/utils.ts`):

`while (Date.now() - startTime < timeout)` fetch, notify the observer,
return on `completed`/`fetched`, throw on `failed`/`expired`, otherwise
sleep `interval` and loop; after the loop, throw `Session timed out`.

`j` is the index of the next fetch, `elapsed` the value of
`Date.now() - startTime` at the top-of-loop check, `fuel` the remaining
iteration budget of the model. -/
def pollLoop {ε : Type} (fetch : Nat → FetchResult ε) (onUpdate : ObsSpec ε)
    (timeout interval : Nat) (fdur : Nat → Nat) :
    Nat → Nat → Nat → PollRun ε
  | _, _, 0 => ⟨.diverged, [], 0⟩
  | j, elapsed, fuel + 1 =>
    if elapsed < timeout then
      match fetch j with
      | .err e => ⟨.threw (.ext e), [], 1⟩
      | .ok s =>
        let inv := invokeObserver onUpdate j s
        match inv.2 with
        | some e => ⟨.threw (.ext e), inv.1, 1⟩
        | none =>
          if isTerminalSuccess s.status then ⟨.returned s, inv.1, 1⟩
          else if isTerminalFailure s.status then
            ⟨.threw (.errorMsg ("Session " ++ s.status)), inv.1, 1⟩
          else
            let rest := pollLoop fetch onUpdate timeout interval fdur
              (j + 1) (elapsed + fdur j + interval) fuel
            ⟨rest.result, inv.1 ++ rest.notified, rest.fetches + 1⟩
    else ⟨.threw (.errorMsg "Session timed out"), [], 0⟩

/-- `waitForSession(sessionId, { onUpdate, timeout, interval })`:
the loop started with fetch index `0` and `elapsed = 0` (the first
top-of-loop check runs synchronously right after `startTime = Date.now()`).
The defaults in the source are `timeout = 300000`, `interval = 1500`. -/
def waitForSession {ε : Type} (fetch : Nat → FetchResult ε) (onUpdate : ObsSpec ε)
    (timeout interval : Nat) (fdur : Nat → Nat) (fuel : Nat) : PollRun ε :=
  pollLoop fetch onUpdate timeout interval fdur 0 0 fuel

/-- The elapsed clock after `k` further continuing iterations, starting
from fetch index `i` with `Date.now() - startTime = e`: each iteration
adds its fetch duration and one `interval` sleep. -/
def elapsedSteps (fdur : Nat → Nat) (interval : Nat) (i e : Nat) : Nat → Nat
  | 0 => e
  | k + 1 => elapsedSteps fdur interval i e k + fdur (i + k) + interval

/-- `Date.now() - startTime` as observed at the top-of-loop check before
fetch `j` of a run started at index `0`. -/
def elapsedAt (fdur : Nat → Nat) (interval : Nat) (j : Nat) : Nat :=
  elapsedSteps fdur interval 0 0 j

/-- The session delivered by a fetch, if it did not throw. -/
def okSession {ε : Type} : FetchResult ε → Option Session
  | .ok s => some s
  | .err _ => none

/-- The sessions an iteration hands to the observer: one (the fetched
session) when `onUpdate` is present, none otherwise. -/
def obsHead {ε : Type} (onUpdate : ObsSpec ε) (s : Session) : List Session :=
  match onUpdate with
  | none => []
  | some _ => [s]

/-- The sessions handed to the observer by iterations `i, …, i + k - 1`
of a run whose fetches at those indices all returned sessions. -/
def notifiedBefore {ε : Type} (fetch : Nat → FetchResult ε) (onUpdate : ObsSpec ε)
    (i k : Nat) : List Session :=
  match onUpdate with
  | none => []
  | some _ => (List.range k).filterMap fun j => okSession (fetch (i + j))

/-- Iteration `j`, entered with clock value `e`, runs to its sleep and
loops: the deadline has not passed, the fetch returns a session, the
observer (if any) does not throw, and the status is non-terminal. -/
def ContinuesStep {ε : Type} (fetch : Nat → FetchResult ε) (onUpdate : ObsSpec ε)
    (timeout : Nat) (j e : Nat) : Prop :=
  e < timeout ∧ ∃ s, fetch j = .ok s ∧ (∀ f, onUpdate = some f → f j s = none) ∧
    isTerminalSuccess s.status = false ∧ isTerminalFailure s.status = false

theorem elapsedSteps_shift (fdur : Nat → Nat) (interval i e : Nat) :
    ∀ j, elapsedSteps fdur interval (i + 1) (e + fdur i + interval) j =
      elapsedSteps fdur interval i e (j + 1)
  | 0 => rfl
  | j + 1 => by
    simp only [elapsedSteps, elapsedSteps_shift fdur interval i e j]
    rw [show i + 1 + j = i + (j + 1) from by omega]

theorem notifiedBefore_zero {ε : Type} (fetch : Nat → FetchResult ε)
    (onUpdate : ObsSpec ε) (i : Nat) : notifiedBefore fetch onUpdate i 0 = [] := by
  cases onUpdate <;> simp [notifiedBefore]

theorem notifiedBefore_succ {ε : Type} (fetch : Nat → FetchResult ε)
    (onUpdate : ObsSpec ε) (i k : Nat) (s : Session) (hs : fetch i = .ok s) :
    notifiedBefore fetch onUpdate i (k + 1) =
      obsHead onUpdate s ++ notifiedBefore fetch onUpdate (i + 1) k := by
  cases onUpdate with
  | none => simp [notifiedBefore, obsHead]
  | some f =>
    simp only [notifiedBefore, obsHead, List.range_succ_eq_map,
      List.filterMap_cons, List.filterMap_map]
    rw [show i + 0 = i from rfl, hs]
    simp only [okSession, List.singleton_append, List.cons.injEq, true_and]
    congr 1
    funext j
    simp only [Function.comp_apply, Nat.succ_eq_add_one]
    rw [show i + (j + 1) = i + 1 + j from by omega]

/-- Unfolding one non-terminal iteration of the loop. -/
theorem pollLoop_continue_step {ε : Type} (fetch : Nat → FetchResult ε)
    (onUpdate : ObsSpec ε) (timeout interval : Nat) (fdur : Nat → Nat)
    (i e n : Nat) (s : Session)
    (hlt : e < timeout) (hs : fetch i = .ok s)
    (hobs : ∀ f, onUpdate = some f → f i s = none)
    (hts : isTerminalSuccess s.status = false)
    (htf : isTerminalFailure s.status = false) :
    pollLoop fetch onUpdate timeout interval fdur i e (n + 1) =
      ⟨(pollLoop fetch onUpdate timeout interval fdur (i + 1) (e + fdur i + interval) n).result,
       obsHead onUpdate s ++
         (pollLoop fetch onUpdate timeout interval fdur (i + 1) (e + fdur i + interval) n).notified,
       (pollLoop fetch onUpdate timeout interval fdur (i + 1) (e + fdur i + interval) n).fetches + 1⟩ := by
  cases onUpdate with
  | none =>
    simp [pollLoop, hlt, hs, invokeObserver, obsHead, hts, htf]
  | some f =>
    have hf : f i s = none := hobs f rfl
    simp [pollLoop, hlt, hs, invokeObserver, obsHead, hts, htf, hf]

/-- Unfolding a terminal-success iteration (`completed` / `fetched`). -/
theorem pollLoop_success_step {ε : Type} (fetch : Nat → FetchResult ε)
    (onUpdate : ObsSpec ε) (timeout interval : Nat) (fdur : Nat → Nat)
    (i e n : Nat) (s : Session)
    (hlt : e < timeout) (hs : fetch i = .ok s)
    (hobs : ∀ f, onUpdate = some f → f i s = none)
    (hts : isTerminalSuccess s.status = true) :
    pollLoop fetch onUpdate timeout interval fdur i e (n + 1) =
      ⟨.returned s, obsHead onUpdate s, 1⟩ := by
  cases onUpdate with
  | none => simp [pollLoop, hlt, hs, invokeObserver, obsHead, hts]
  | some f =>
    have hf : f i s = none := hobs f rfl
    simp [pollLoop, hlt, hs, invokeObserver, obsHead, hts, hf]

/-- Unfolding a terminal-failure iteration (`failed` / `expired`):
`throw new Error(`Session ${session.status}`)`. -/
theorem pollLoop_failure_step {ε : Type} (fetch : Nat → FetchResult ε)
    (onUpdate : ObsSpec ε) (timeout interval : Nat) (fdur : Nat → Nat)
    (i e n : Nat) (s : Session)
    (hlt : e < timeout) (hs : fetch i = .ok s)
    (hobs : ∀ f, onUpdate = some f → f i s = none)
    (hts : isTerminalSuccess s.status = false)
    (htf : isTerminalFailure s.status = true) :
    pollLoop fetch onUpdate timeout interval fdur i e (n + 1) =
      ⟨.threw (.errorMsg ("Session " ++ s.status)), obsHead onUpdate s, 1⟩ := by
  cases onUpdate with
  | none => simp [pollLoop, hlt, hs, invokeObserver, obsHead, hts, htf]
  | some f =>
    have hf : f i s = none := hobs f rfl
    simp [pollLoop, hlt, hs, invokeObserver, obsHead, hts, htf, hf]

/-- Unfolding an iteration whose fetch throws: the thrown value
propagates as-is and the loop ends. -/
theorem pollLoop_fetch_err_step {ε : Type} (fetch : Nat → FetchResult ε)
    (onUpdate : ObsSpec ε) (timeout interval : Nat) (fdur : Nat → Nat)
    (i e n : Nat) (ex : ε)
    (hlt : e < timeout) (hs : fetch i = .err ex) :
    pollLoop fetch onUpdate timeout interval fdur i e (n + 1) =
      ⟨.threw (.ext ex), [], 1⟩ := by
  simp [pollLoop, hlt, hs]

/-- Unfolding an iteration whose observer throws: the thrown value
propagates (the call is not wrapped in try/catch) and the loop ends. -/
theorem pollLoop_obs_throw_step {ε : Type} (fetch : Nat → FetchResult ε)
    (f : Nat → Session → Option ε) (timeout interval : Nat) (fdur : Nat → Nat)
    (i e n : Nat) (s : Session) (ex : ε)
    (hlt : e < timeout) (hs : fetch i = .ok s) (hf : f i s = some ex) :
    pollLoop fetch (some f) timeout interval fdur i e (n + 1) =
      ⟨.threw (.ext ex), [s], 1⟩ := by
  simp [pollLoop, hlt, hs, invokeObserver, hf]

/-- Unfolding the check when the deadline has passed: no fetch is issued
and `Session timed out` is thrown. -/
theorem pollLoop_timeout_step {ε : Type} (fetch : Nat → FetchResult ε)
    (onUpdate : ObsSpec ε) (timeout interval : Nat) (fdur : Nat → Nat)
    (i e n : Nat) (hge : ¬ e < timeout) :
    pollLoop fetch onUpdate timeout interval fdur i e (n + 1) =
      ⟨.threw (.errorMsg "Session timed out"), [], 0⟩ := by
  simp [pollLoop, hge]

/-- The workhorse: a run whose first `k` iterations all continue is the
run of the residual loop at index `k`, with `k` more fetches and the
first `k` observer notifications in front. -/
theorem pollLoop_shift {ε : Type} (fetch : Nat → FetchResult ε) (onUpdate : ObsSpec ε)
    (timeout interval : Nat) (fdur : Nat → Nat) :
    ∀ (k i e fuel : Nat),
      (∀ j, j < k →
        ContinuesStep fetch onUpdate timeout (i + j) (elapsedSteps fdur interval i e j)) →
      pollLoop fetch onUpdate timeout interval fdur i e (k + fuel) =
        ⟨(pollLoop fetch onUpdate timeout interval fdur (i + k)
            (elapsedSteps fdur interval i e k) fuel).result,
         notifiedBefore fetch onUpdate i k ++
           (pollLoop fetch onUpdate timeout interval fdur (i + k)
             (elapsedSteps fdur interval i e k) fuel).notified,
         (pollLoop fetch onUpdate timeout interval fdur (i + k)
           (elapsedSteps fdur interval i e k) fuel).fetches + k⟩ := by
  intro k
  induction k with
  | zero =>
    intro i e fuel _
    simp [elapsedSteps, notifiedBefore_zero]
  | succ k ih =>
    intro i e fuel h
    obtain ⟨hlt, s, hs, hobs, hts, htf⟩ :=
      (by simpa [elapsedSteps] using h 0 (Nat.succ_pos k) :
        ContinuesStep fetch onUpdate timeout i e)
    rw [Nat.succ_add,
      pollLoop_continue_step fetch onUpdate timeout interval fdur i e (k + fuel) s
        hlt hs hobs hts htf,
      ih (i + 1) (e + fdur i + interval) fuel ?_]
    · have hsh : ∀ j, elapsedSteps fdur interval (i + 1) (e + fdur i + interval) j =
          elapsedSteps fdur interval i e (j + 1) :=
        elapsedSteps_shift fdur interval i e
      rw [notifiedBefore_succ fetch onUpdate i k s hs, hsh k,
        show i + 1 + k = i + (k + 1) from by omega]
      simp [List.append_assoc, Nat.add_assoc]
    · intro j hj
      have := h (j + 1) (by omega)
      rw [show i + (j + 1) = i + 1 + j from by omega] at this
      rw [elapsedSteps_shift fdur interval i e j]
      exact this

/-- C1: when every fetch before `k` continues the loop and fetch `k`
returns the first terminal status, a success (`completed` / `fetched`),
before the deadline, `waitForSession` resolves with exactly that session,
exactly once, and issues no fetch beyond the `k + 1` already made. -/
theorem waitForSession_first_terminal_success {ε : Type} (fetch : Nat → FetchResult ε)
    (onUpdate : ObsSpec ε) (timeout interval : Nat) (fdur : Nat → Nat)
    (k fuel : Nat) (s : Session)
    (hpre : ∀ j, j < k → ContinuesStep fetch onUpdate timeout j (elapsedAt fdur interval j))
    (hlt : elapsedAt fdur interval k < timeout)
    (hs : fetch k = .ok s)
    (hobs : ∀ f, onUpdate = some f → f k s = none)
    (hterm : s.status = "completed" ∨ s.status = "fetched") :
    (waitForSession fetch onUpdate timeout interval fdur (k + (fuel + 1))).result =
        .returned s ∧
    (waitForSession fetch onUpdate timeout interval fdur (k + (fuel + 1))).fetches =
        k + 1 := by
  have hts : isTerminalSuccess s.status = true := by
    rcases hterm with h | h <;> simp [isTerminalSuccess, h]
  have hrun := pollLoop_shift fetch onUpdate timeout interval fdur k 0 0 (fuel + 1)
    (by intro j hj; simpa [elapsedAt] using hpre j hj)
  have hstep := pollLoop_success_step fetch onUpdate timeout interval fdur (0 + k)
    (elapsedSteps fdur interval 0 0 k) fuel s (by simpa [elapsedAt] using hlt)
    (by simpa using hs) (by simpa using hobs) hts
  simp only [waitForSession]
  rw [hrun, hstep]
  exact ⟨rfl, by simp [Nat.add_comm]⟩

/-- C2: when every fetch before `k` continues the loop and fetch `k`
returns the first terminal status, a failure (`failed` / `expired`),
before the deadline, `waitForSession` rejects with the error message
`Session <status>` carrying that exact status — neither a success nor
the timeout error — and issues no fetch beyond the `k + 1` made. -/
theorem waitForSession_first_terminal_failure {ε : Type} (fetch : Nat → FetchResult ε)
    (onUpdate : ObsSpec ε) (timeout interval : Nat) (fdur : Nat → Nat)
    (k fuel : Nat) (s : Session)
    (hpre : ∀ j, j < k → ContinuesStep fetch onUpdate timeout j (elapsedAt fdur interval j))
    (hlt : elapsedAt fdur interval k < timeout)
    (hs : fetch k = .ok s)
    (hobs : ∀ f, onUpdate = some f → f k s = none)
    (hterm : s.status = "failed" ∨ s.status = "expired") :
    (waitForSession fetch onUpdate timeout interval fdur (k + (fuel + 1))).result =
        .threw (.errorMsg ("Session " ++ s.status)) ∧
    (waitForSession fetch onUpdate timeout interval fdur (k + (fuel + 1))).result ≠
        .threw (.errorMsg "Session timed out") ∧
    (waitForSession fetch onUpdate timeout interval fdur (k + (fuel + 1))).fetches =
        k + 1 := by
  have hts : isTerminalSuccess s.status = false := by
    rcases hterm with h | h <;> simp [isTerminalSuccess, h]
  have htf : isTerminalFailure s.status = true := by
    rcases hterm with h | h <;> simp [isTerminalFailure, h]
  have hrun := pollLoop_shift fetch onUpdate timeout interval fdur k 0 0 (fuel + 1)
    (by intro j hj; simpa [elapsedAt] using hpre j hj)
  have hstep := pollLoop_failure_step fetch onUpdate timeout interval fdur (0 + k)
    (elapsedSteps fdur interval 0 0 k) fuel s (by simpa [elapsedAt] using hlt)
    (by simpa using hs) (by simpa using hobs) hts htf
  simp only [waitForSession]
  rw [hrun, hstep]
  refine ⟨rfl, ?_, by simp [Nat.add_comm]⟩
  rcases hterm with h | h <;> simp [h]

/-- C4: when every issued fetch continues the loop (all statuses
non-terminal) and the clock at check `n` has reached the timeout, the
loop ends with the `Session timed out` error; the deadline is checked at
the top of each iteration, so exactly `n` fetches were issued and none
after the deadline passed. -/
theorem waitForSession_timeout {ε : Type} (fetch : Nat → FetchResult ε)
    (onUpdate : ObsSpec ε) (timeout interval : Nat) (fdur : Nat → Nat)
    (n fuel : Nat)
    (hpre : ∀ j, j < n → ContinuesStep fetch onUpdate timeout j (elapsedAt fdur interval j))
    (hge : timeout ≤ elapsedAt fdur interval n) :
    (waitForSession fetch onUpdate timeout interval fdur (n + (fuel + 1))).result =
        .threw (.errorMsg "Session timed out") ∧
    (waitForSession fetch onUpdate timeout interval fdur (n + (fuel + 1))).fetches =
        n := by
  have hrun := pollLoop_shift fetch onUpdate timeout interval fdur n 0 0 (fuel + 1)
    (by intro j hj; simpa [elapsedAt] using hpre j hj)
  have hstep := pollLoop_timeout_step fetch onUpdate timeout interval fdur (0 + n)
    (elapsedSteps fdur interval 0 0 n) fuel
    (by simp only [elapsedAt] at hge; omega)
  simp only [waitForSession]
  rw [hrun, hstep]
  exact ⟨rfl, by simp⟩

/-- C5 (counterexample): with `timeout = 0` the guard
`Date.now() - startTime < timeout` is already false at the first check,
so the claimed single fetch attempt never happens: zero fetches are
issued before the `Session timed out` rejection. -/
theorem waitForSession_zero_timeout_cex :
    (waitForSession (ε := String) (fun _ => .ok ⟨"s1", "pending", none, none⟩)
        none 0 1500 (fun _ => 0) 9).fetches ≠ 1 ∧
    (waitForSession (ε := String) (fun _ => .ok ⟨"s1", "pending", none, none⟩)
        none 0 1500 (fun _ => 0) 9).fetches = 0 ∧
    (waitForSession (ε := String) (fun _ => .ok ⟨"s1", "pending", none, none⟩)
        none 0 1500 (fun _ => 0) 9).result =
      .threw (.errorMsg "Session timed out") := by
  refine ⟨by decide, rfl, rfl⟩

/-- C5 (amended): calling `waitForSession` with `timeout = 0` is legal
but performs no fetch attempt at all: the poll immediately ends with the
`Session timed out` error, with no fetch issued and no observer call. -/
theorem waitForSession_zero_timeout {ε : Type} (fetch : Nat → FetchResult ε)
    (onUpdate : ObsSpec ε) (interval : Nat) (fdur : Nat → Nat) (fuel : Nat) :
    waitForSession fetch onUpdate 0 interval fdur (fuel + 1) =
      ⟨.threw (.errorMsg "Session timed out"), [], 0⟩ := by
  simp only [waitForSession]
  exact pollLoop_timeout_step fetch onUpdate 0 interval fdur 0 0 fuel (by omega)

/-- C6: when every fetch before `k` continues the loop and the fetch at
`k` throws a transport error, `waitForSession` rejects with exactly that
error value, propagated as-is (not wrapped in the loop's own `Error`s),
with no retry: no fetch is issued after the failing one. -/
theorem waitForSession_transport_error {ε : Type} (fetch : Nat → FetchResult ε)
    (onUpdate : ObsSpec ε) (timeout interval : Nat) (fdur : Nat → Nat)
    (k fuel : Nat) (ex : ε)
    (hpre : ∀ j, j < k → ContinuesStep fetch onUpdate timeout j (elapsedAt fdur interval j))
    (hlt : elapsedAt fdur interval k < timeout)
    (hs : fetch k = .err ex) :
    (waitForSession fetch onUpdate timeout interval fdur (k + (fuel + 1))).result =
        .threw (.ext ex) ∧
    (waitForSession fetch onUpdate timeout interval fdur (k + (fuel + 1))).fetches =
        k + 1 := by
  have hrun := pollLoop_shift fetch onUpdate timeout interval fdur k 0 0 (fuel + 1)
    (by intro j hj; simpa [elapsedAt] using hpre j hj)
  have hstep := pollLoop_fetch_err_step fetch onUpdate timeout interval fdur (0 + k)
    (elapsedSteps fdur interval 0 0 k) fuel ex (by simpa [elapsedAt] using hlt)
    (by simpa using hs)
  simp only [waitForSession]
  rw [hrun, hstep]
  exact ⟨rfl, by simp [Nat.add_comm]⟩

/-- C3 (counterexample): the `onUpdate(session)` call is not wrapped in
try/catch, so a throwing observer changes the outcome: with an observer
that throws `boom` the poll rejects with `boom`, while the identical
fetch sequence with a non-throwing observer times out. -/
theorem waitForSession_observer_not_isolated :
    (waitForSession (ε := String) (fun _ => .ok ⟨"s1", "pending", none, none⟩)
        (some fun _ _ => some "boom") 2 1 (fun _ => 0) 5).result ≠
    (waitForSession (ε := String) (fun _ => .ok ⟨"s1", "pending", none, none⟩)
        (some fun _ _ => none) 2 1 (fun _ => 0) 5).result := by
  decide

/-- C3 (amended): an observer that throws aborts polling: if every fetch
before `k` continues the loop and the observer throws `ex` at invocation
`k`, `waitForSession` rejects with exactly that error — it is propagated
to the caller, and no further fetch is issued. -/
theorem waitForSession_observer_throw_propagates {ε : Type} (fetch : Nat → FetchResult ε)
    (f : Nat → Session → Option ε) (timeout interval : Nat) (fdur : Nat → Nat)
    (k fuel : Nat) (s : Session) (ex : ε)
    (hpre : ∀ j, j < k → ContinuesStep fetch (some f) timeout j (elapsedAt fdur interval j))
    (hlt : elapsedAt fdur interval k < timeout)
    (hs : fetch k = .ok s)
    (hf : f k s = some ex) :
    (waitForSession fetch (some f) timeout interval fdur (k + (fuel + 1))).result =
        .threw (.ext ex) ∧
    (waitForSession fetch (some f) timeout interval fdur (k + (fuel + 1))).fetches =
        k + 1 := by
  have hrun := pollLoop_shift fetch (some f) timeout interval fdur k 0 0 (fuel + 1)
    (by intro j hj; simpa [elapsedAt] using hpre j hj)
  have hstep := pollLoop_obs_throw_step fetch f timeout interval fdur (0 + k)
    (elapsedSteps fdur interval 0 0 k) fuel s ex (by simpa [elapsedAt] using hlt)
    (by simpa using hs) (by simpa using hf)
  simp only [waitForSession]
  rw [hrun, hstep]
  exact ⟨rfl, by simp [Nat.add_comm]⟩

/-- A status string outside the known enumeration hits neither terminal
branch of the loop. -/
theorem unknown_status_not_terminal (st : String)
    (h : st ∉ (["pending", "processing", "completed", "fetched", "failed",
      "expired"] : List String)) :
    isTerminalSuccess st = false ∧ isTerminalFailure st = false := by
  simp only [List.mem_cons, List.mem_singleton, not_or] at h
  obtain ⟨-, -, h3, h4, h5, h6, -⟩ := h
  simp [isTerminalSuccess, isTerminalFailure, h3, h4, h5, h6]

/-- When every fetch in the window returned a session, the observer
notification list of the window is exactly those sessions in order. -/
theorem notifiedBefore_all_ok {ε : Type} (fetch : Nat → FetchResult ε)
    (f : Nat → Session → Option ε) (sess : Nat → Session) (i : Nat) :
    ∀ k, (∀ j, j < k → fetch (i + j) = .ok (sess (i + j))) →
      notifiedBefore fetch (some f) i k = (List.range k).map fun j => sess (i + j)
  | 0, _ => by simp [notifiedBefore]
  | k + 1, h => by
    have ih := notifiedBefore_all_ok fetch f sess i k fun j hj => h j (by omega)
    simp only [notifiedBefore, List.range_succ, List.filterMap_append,
      List.map_append]
    rw [show ((List.range k).filterMap fun j => okSession (fetch (i + j))) =
        notifiedBefore fetch (some f) i k from rfl, ih]
    simp [okSession, h k (by omega)]

/-- With an always-successful fetcher and a non-throwing observer, the
notification trace of any run of the loop is one entry per issued fetch,
in fetch order, carrying the exact fetched sessions. -/
theorem pollLoop_notified_trace {ε : Type} (fetch : Nat → FetchResult ε)
    (f : Nat → Session → Option ε) (timeout interval : Nat) (fdur : Nat → Nat)
    (sess : Nat → Session)
    (hok : ∀ j, fetch j = .ok (sess j))
    (hnt : ∀ j s, f j s = none) :
    ∀ fuel i e,
      (pollLoop fetch (some f) timeout interval fdur i e fuel).notified =
        (List.range (pollLoop fetch (some f) timeout interval fdur i e fuel).fetches).map
          fun j => sess (i + j) := by
  intro fuel
  induction fuel with
  | zero => intro i e; simp [pollLoop]
  | succ fuel ih =>
    intro i e
    have hobs : ∀ g, (some f : ObsSpec ε) = some g → g i (sess i) = none := by
      intro g hg
      cases hg
      exact hnt i (sess i)
    by_cases hlt : e < timeout
    · by_cases hts : isTerminalSuccess (sess i).status
      · rw [pollLoop_success_step fetch (some f) timeout interval fdur i e fuel
          (sess i) hlt (hok i) hobs hts]
        simp [obsHead, List.range_succ]
      · by_cases htf : isTerminalFailure (sess i).status
        · rw [pollLoop_failure_step fetch (some f) timeout interval fdur i e fuel
            (sess i) hlt (hok i) hobs (by simpa using hts) htf]
          simp [obsHead, List.range_succ]
        · rw [pollLoop_continue_step fetch (some f) timeout interval fdur i e fuel
            (sess i) hlt (hok i) hobs (by simpa using hts) (by simpa using htf)]
          simp only [obsHead, ih (i + 1) (e + fdur i + interval),
            List.range_succ_eq_map, List.map_cons, List.map_map,
            List.singleton_append, List.cons.injEq]
          refine ⟨by simp, ?_⟩
          congr 1
          funext j
          simp only [Function.comp_apply, Nat.succ_eq_add_one]
          rw [show i + (j + 1) = i + 1 + j from by omega]
    · rw [pollLoop_timeout_step fetch (some f) timeout interval fdur i e fuel hlt]
      simp

/-- C7: with `onUpdate` supplied and non-throwing and every fetch
completing, the observer is invoked exactly once per fetch the run
issued — including the terminal one — in fetch order, with the exact
session values fetched: the notification list is the fetched sessions
`0, …, fetches - 1`, nothing skipped, duplicated or reordered. -/
theorem waitForSession_observer_trace {ε : Type} (fetch : Nat → FetchResult ε)
    (f : Nat → Session → Option ε) (timeout interval : Nat) (fdur : Nat → Nat)
    (fuel : Nat) (sess : Nat → Session)
    (hok : ∀ j, fetch j = .ok (sess j))
    (hnt : ∀ j s, f j s = none) :
    (waitForSession fetch (some f) timeout interval fdur fuel).notified =
      (List.range (waitForSession fetch (some f) timeout interval fdur fuel).fetches).map
        sess := by
  simp only [waitForSession]
  rw [pollLoop_notified_trace fetch f timeout interval fdur sess hok hnt fuel 0 0]
  simp

/-- C8: statuses outside the known enumeration are treated as
non-terminal: if every fetch before `k` returns a session whose status
is some unknown string, the poll does not fail on them but keeps
polling, a `completed` fetch at `k` still resolves with that session,
and the observer received every session, the unknown-status ones
included, in order. -/
theorem waitForSession_unknown_status_nonterminal {ε : Type} (fetch : Nat → FetchResult ε)
    (f : Nat → Session → Option ε) (timeout interval : Nat) (fdur : Nat → Nat)
    (k fuel : Nat) (sess : Nat → Session)
    (hok : ∀ j, j ≤ k → fetch j = .ok (sess j))
    (hnt : ∀ j s, f j s = none)
    (hunk : ∀ j, j < k → (sess j).status ∉
      (["pending", "processing", "completed", "fetched", "failed",
        "expired"] : List String))
    (hlt : ∀ j, j ≤ k → elapsedAt fdur interval j < timeout)
    (hterm : (sess k).status = "completed") :
    (waitForSession fetch (some f) timeout interval fdur (k + (fuel + 1))).result =
        .returned (sess k) ∧
    (waitForSession fetch (some f) timeout interval fdur (k + (fuel + 1))).fetches =
        k + 1 ∧
    (waitForSession fetch (some f) timeout interval fdur (k + (fuel + 1))).notified =
        (List.range (k + 1)).map sess := by
  have hobs : ∀ j, ∀ g, (some f : ObsSpec ε) = some g → g j (sess j) = none := by
    intro j g hg
    cases hg
    exact hnt j (sess j)
  have hrun := pollLoop_shift fetch (some f) timeout interval fdur k 0 0 (fuel + 1) ?hpre
  case hpre =>
    intro j hj
    obtain ⟨hts, htf⟩ := unknown_status_not_terminal (sess j).status (hunk j hj)
    refine ⟨by simpa [elapsedAt] using hlt j (by omega), sess j,
      by simpa using hok j (by omega), fun g hg => by cases hg; exact hnt _ _,
      hts, htf⟩
  have hstep := pollLoop_success_step fetch (some f) timeout interval fdur (0 + k)
    (elapsedSteps fdur interval 0 0 k) fuel (sess k)
    (by simpa [elapsedAt] using hlt k (by omega))
    (by simpa using hok k (by omega)) (fun g hg => by cases hg; exact hnt _ _)
    (by simp [isTerminalSuccess, hterm])

  have hnotif := notifiedBefore_all_ok fetch f sess 0 k
    (fun j hj => by simpa using hok j (by omega))
  simp only [waitForSession]
  rw [hrun, hstep]
  refine ⟨rfl, by simp [Nat.add_comm], ?_⟩
  simp only [hnotif, obsHead, List.range_succ, List.map_append]
  simp

/-- C1 witness: `pending` then `completed` with a presentation resolves
with the completed session after exactly two fetches. -/
theorem waitForSession_first_terminal_success_witness :
    (waitForSession (ε := String)
        (fun j => .ok ⟨"s1", if j = 0 then "pending" else "completed",
          some [("given_name", "Ana")], none⟩)
        none 1000 10 (fun _ => 0) 2).result =
      .returned ⟨"s1", "completed", some [("given_name", "Ana")], none⟩ ∧
    (waitForSession (ε := String)
        (fun j => .ok ⟨"s1", if j = 0 then "pending" else "completed",
          some [("given_name", "Ana")], none⟩)
        none 1000 10 (fun _ => 0) 2).fetches = 2 := by
  exact waitForSession_first_terminal_success _ none 1000 10 (fun _ => 0) 1 0
    ⟨"s1", "completed", some [("given_name", "Ana")], none⟩
    (by
      intro j hj
      interval_cases j
      exact ⟨by decide, ⟨"s1", "pending", some [("given_name", "Ana")], none⟩, rfl,
        fun f hf => Option.noConfusion hf, by decide, by decide⟩)
    (by decide) rfl (fun f hf => Option.noConfusion hf) (Or.inl rfl)

/-- C2 witness: `expired` on the first fetch rejects with
`Session expired` after exactly one fetch. -/
theorem waitForSession_first_terminal_failure_witness :
    (waitForSession (ε := String)
        (fun _ => .ok ⟨"s2", "expired", none, none⟩)
        none 300000 1500 (fun _ => 0) 1).result =
      .threw (.errorMsg "Session expired") ∧
    (waitForSession (ε := String)
        (fun _ => .ok ⟨"s2", "expired", none, none⟩)
        none 300000 1500 (fun _ => 0) 1).result ≠
      .threw (.errorMsg "Session timed out") ∧
    (waitForSession (ε := String)
        (fun _ => .ok ⟨"s2", "expired", none, none⟩)
        none 300000 1500 (fun _ => 0) 1).fetches = 1 := by
  exact waitForSession_first_terminal_failure _ none 300000 1500 (fun _ => 0) 0 0
    ⟨"s2", "expired", none, none⟩
    (fun j hj => absurd hj (Nat.not_lt_zero j))
    (by decide) rfl (fun f hf => Option.noConfusion hf) (Or.inr rfl)

/-- C3 witness (amended claim): an observer throwing `boom` on the first
invocation makes the poll reject with `boom` after one fetch. -/
theorem waitForSession_observer_throw_propagates_witness :
    (waitForSession (ε := String)
        (fun _ => .ok ⟨"s3", "pending", none, none⟩)
        (some fun _ _ => some "boom") 300000 1500 (fun _ => 0) 1).result =
      .threw (.ext "boom") ∧
    (waitForSession (ε := String)
        (fun _ => .ok ⟨"s3", "pending", none, none⟩)
        (some fun _ _ => some "boom") 300000 1500 (fun _ => 0) 1).fetches = 1 := by
  exact waitForSession_observer_throw_propagates _ _ 300000 1500 (fun _ => 0) 0 0
    ⟨"s3", "pending", none, none⟩ "boom"
    (fun j hj => absurd hj (Nat.not_lt_zero j))
    (by decide) rfl rfl

/-- C4 witness: always `pending`, `timeout = 50`, `interval = 20`: the
poll times out after exactly three fetches (at clock 0, 20 and 40). -/
theorem waitForSession_timeout_witness :
    (waitForSession (ε := String)
        (fun _ => .ok ⟨"s4", "pending", none, none⟩)
        none 50 20 (fun _ => 0) 4).result =
      .threw (.errorMsg "Session timed out") ∧
    (waitForSession (ε := String)
        (fun _ => .ok ⟨"s4", "pending", none, none⟩)
        none 50 20 (fun _ => 0) 4).fetches = 3 := by
  exact waitForSession_timeout _ none 50 20 (fun _ => 0) 3 0
    (by
      intro j hj
      interval_cases j <;>
        exact ⟨by decide, ⟨"s4", "pending", none, none⟩, rfl,
          fun f hf => Option.noConfusion hf, by decide, by decide⟩)
    (by decide)

/-- C6 witness: `pending` then a thrown `network error` rejects with
exactly that error value after the second fetch. -/
theorem waitForSession_transport_error_witness :
    (waitForSession (ε := String)
        (fun j => if j = 0 then .ok ⟨"s6", "pending", none, none⟩
          else .err "network error")
        none 300000 1500 (fun _ => 0) 2).result =
      .threw (.ext "network error") ∧
    (waitForSession (ε := String)
        (fun j => if j = 0 then .ok ⟨"s6", "pending", none, none⟩
          else .err "network error")
        none 300000 1500 (fun _ => 0) 2).fetches = 2 := by
  exact waitForSession_transport_error _ none 300000 1500 (fun _ => 0) 1 0
    "network error"
    (by
      intro j hj
      interval_cases j
      exact ⟨by decide, ⟨"s6", "pending", none, none⟩, rfl,
        fun f hf => Option.noConfusion hf, by decide, by decide⟩)
    (by decide) rfl

/-- C7 witness: over `pending`, `pending`, `completed` the observer sees
exactly the fetched sessions, one per fetch, in order. -/
theorem waitForSession_observer_trace_witness :
    (waitForSession (ε := String)
        (fun j => .ok ⟨"s7", if j < 2 then "pending" else "completed", none, none⟩)
        (some fun _ _ => none) 1000 10 (fun _ => 0) 9).notified =
      (List.range
        (waitForSession (ε := String)
          (fun j => .ok ⟨"s7", if j < 2 then "pending" else "completed", none, none⟩)
          (some fun _ _ => none) 1000 10 (fun _ => 0) 9).fetches).map
        (fun j => ⟨"s7", if j < 2 then "pending" else "completed", none, none⟩) := by
  exact waitForSession_observer_trace _ _ 1000 10 (fun _ => 0) 9
    (fun j => ⟨"s7", if j < 2 then "pending" else "completed", none, none⟩)
    (fun j => rfl) (fun j s => rfl)

/-- C8 witness: an unrecognized status `queued` followed by `completed`
still resolves with the completed session, and the observer received
both sessions in order. -/
theorem waitForSession_unknown_status_nonterminal_witness :
    (waitForSession (ε := String)
        (fun j => .ok ⟨"s8", if j = 0 then "queued" else "completed", none, none⟩)
        (some fun _ _ => none) 1000 10 (fun _ => 0) 2).result =
      .returned ⟨"s8", "completed", none, none⟩ ∧
    (waitForSession (ε := String)
        (fun j => .ok ⟨"s8", if j = 0 then "queued" else "completed", none, none⟩)
        (some fun _ _ => none) 1000 10 (fun _ => 0) 2).fetches = 2 ∧
    (waitForSession (ε := String)
        (fun j => .ok ⟨"s8", if j = 0 then "queued" else "completed", none, none⟩)
        (some fun _ _ => none) 1000 10 (fun _ => 0) 2).notified =
      (List.range 2).map
        (fun j => ⟨"s8", if j = 0 then "queued" else "completed", none, none⟩) := by
  exact waitForSession_unknown_status_nonterminal _ _ 1000 10 (fun _ => 0) 1 0
    (fun j => ⟨"s8", if j = 0 then "queued" else "completed", none, none⟩)
    (fun j _ => rfl) (fun j s => rfl)
    (by intro j hj; interval_cases j; decide)
    (by intro j hj; interval_cases j <;> decide)
    rfl

/-! ## The `GET /api/session/:id` handler

Embedding of the Express route in `src/client/job-portal/app.ts`
(lines 507–524): the handler looks the session up through the backend
client and answers `res.json` with an object literal built from
`session.status` and `session.credentials` only. -/

/-- A JSON value, for the bodies produced by `res.json`. -/
inductive Json where
  | null
  | str (s : String)
  | obj (fields : List (String × Json))
  | arr (elems : List Json)
deriving Repr

/-- JSON encoding of one claims map. -/
def claimsJson (m : List (String × String)) : Json :=
  .obj (m.map fun p => (p.1, .str p.2))

/-- The body the handler sends on success:
`res.json({ status: session.status, credentials: session.credentials })`.
`JSON.stringify` drops a key whose value is `undefined`, so the
`credentials` key appears only when the backend session carries one; no
other field of the backend session — in particular not `presentation` —
is included. -/
def sessionEndpointBody (s : Session) : Json :=
  .obj ([("status", .str s.status)] ++
    (match s.credentials with
     | none => []
     | some c => [("credentials", .arr (c.map claimsJson))]))

/-- The two response shapes of the handler: 200 with a JSON body, or 500
with an error body. -/
inductive HttpResponse where
  | ok (body : Json)
  | serverError (body : Json)
deriving Repr

/-- The handler for `GET /api/session/:id`: `client.getSession(sessionId)`
either yields a session — answered with `sessionEndpointBody` — or
throws, answered with status 500 and
`error.message || 'Internal Server Error'` (the empty message is falsy). -/
def sessionEndpoint (getSession : String → Except String Session) (id : String) :
    HttpResponse :=
  match getSession id with
  | .ok s => .ok (sessionEndpointBody s)
  | .error msg =>
    .serverError (.obj [("error",
      .str (if msg = "" then "Internal Server Error" else msg))])

/-- Looking a field up in a JSON object body. -/
def jsonField (j : Json) (key : String) : Option Json :=
  match j with
  | .obj fields => fields.lookup key
  | _ => none

/-- C9 (counterexample): a successful lookup of a backend session whose
`presentation` is present is answered with a body that contains only the
`status` field — the `presentation` field does not appear in the
response. -/
theorem sessionEndpoint_drops_presentation :
    sessionEndpoint
      (fun _ => .ok ⟨"abc", "completed", some [("given_name", "Ana")], none⟩)
      "abc" = .ok (.obj [("status", .str "completed")]) ∧
    jsonField (.obj [("status", .str "completed")]) "presentation" = none := by
  exact ⟨rfl, rfl⟩

/-- C9 (amended): for every successful backend session lookup the
endpoint answers 200 with a JSON body containing the session's `status`
string and, when the backend session has them, its `credentials` — and
nothing else: the `presentation` field of the backend session never
appears in the body. -/
theorem sessionEndpoint_body_fields (getSession : String → Except String Session)
    (id : String) (s : Session) (h : getSession id = .ok s) :
    sessionEndpoint getSession id = .ok (sessionEndpointBody s) ∧
    jsonField (sessionEndpointBody s) "status" = some (.str s.status) ∧
    (∀ c, s.credentials = some c →
      jsonField (sessionEndpointBody s) "credentials" =
        some (.arr (c.map claimsJson))) ∧
    jsonField (sessionEndpointBody s) "presentation" = none := by
  refine ⟨by simp [sessionEndpoint, h], ?_, ?_, ?_⟩
  · cases hc : s.credentials <;> simp [sessionEndpointBody, jsonField, hc, List.lookup]
  · intro c hc
    simp [sessionEndpointBody, jsonField, hc, List.lookup]
  · cases hc : s.credentials <;> simp [sessionEndpointBody, jsonField, hc, List.lookup]

/-- C9 witness: a backend session with credentials and no presentation,
looked up successfully. -/
theorem sessionEndpoint_body_fields_witness :
    sessionEndpoint
      (fun _ => .ok ⟨"xyz", "fetched", none, some [[("degree", "BSc")]]⟩) "xyz" =
      .ok (sessionEndpointBody ⟨"xyz", "fetched", none, some [[("degree", "BSc")]]⟩) ∧
    jsonField (sessionEndpointBody ⟨"xyz", "fetched", none, some [[("degree", "BSc")]]⟩)
      "status" = some (.str "fetched") ∧
    (∀ c, (some [[("degree", "BSc")]] : Option (List (List (String × String)))) = some c →
      jsonField (sessionEndpointBody ⟨"xyz", "fetched", none, some [[("degree", "BSc")]]⟩)
        "credentials" = some (.arr (c.map claimsJson))) ∧
    jsonField (sessionEndpointBody ⟨"xyz", "fetched", none, some [[("degree", "BSc")]]⟩)
      "presentation" = none := by
  exact sessionEndpoint_body_fields _ "xyz"
    ⟨"xyz", "fetched", none, some [[("degree", "BSc")]]⟩ rfl

/-! ## `buildRedirectUrl` / `getSessionFromUrl`

Embedding of the URL helpers (`src/client/shared/utils.ts`,
lines 270–283) together with the platform pieces they call into: the
WHATWG `application/x-www-form-urlencoded` serializer used by
`url.searchParams.set` / `url.toString()` and the parser used by
`new URLSearchParams(location.search)`.  Strings crossing this boundary
are represented by their UTF-8 byte sequences (naturals below 256); the
platform guarantee that UTF-8 decoding inverts encoding is outside the
model. -/

/-- Bytes the urlencoded serializer leaves as-is: ASCII alphanumerics
and `*`, `-`, `.`, `_`. -/
def isUrlencodedSafe (b : Nat) : Bool :=
  b == 42 || b == 45 || b == 46 || b == 95 ||
  (decide (48 ≤ b) && decide (b ≤ 57)) ||
  (decide (65 ≤ b) && decide (b ≤ 90)) ||
  (decide (97 ≤ b) && decide (b ≤ 122))

/-- The uppercase hex digit of a value below 16. -/
def hexUpper (n : Nat) : Char :=
  if n < 10 then Char.ofNat (48 + n) else Char.ofNat (55 + n)

/-- Urlencoded serialization of one byte: space becomes `+`, safe bytes
stay themselves, everything else is percent-encoded with uppercase hex. -/
def encodeByte (b : Nat) : List Char :=
  if b = 32 then ['+']
  else if isUrlencodedSafe b then [Char.ofNat b]
  else ['%', hexUpper (b / 16), hexUpper (b % 16)]

/-- Urlencoded serialization of a byte sequence. -/
def urlencode (bs : List Nat) : List Char :=
  (bs.map encodeByte).flatten

/-- The numeric value of a hex digit character, upper or lower case. -/
def hexVal (c : Char) : Option Nat :=
  if 48 ≤ c.toNat ∧ c.toNat ≤ 57 then some (c.toNat - 48)
  else if 65 ≤ c.toNat ∧ c.toNat ≤ 70 then some (c.toNat - 55)
  else if 97 ≤ c.toNat ∧ c.toNat ≤ 102 then some (c.toNat - 87)
  else none

/-- After a `%`: two hex digits give the encoded byte and the remaining
input; anything else means the `%` was malformed. -/
def percentStep (rest : List Char) : Option (Nat × List Char) :=
  match rest with
  | h1 :: h2 :: rest2 =>
    match hexVal h1, hexVal h2 with
    | some d1, some d2 => some (16 * d1 + d2, rest2)
    | _, _ => none
  | _ => none

theorem percentStep_length (rest : List Char) (b : Nat) (rest2 : List Char)
    (h : percentStep rest = some (b, rest2)) : rest2.length + 2 = rest.length := by
  match rest with
  | [] => simp [percentStep] at h
  | [h1] => simp [percentStep] at h
  | h1 :: h2 :: r =>
    simp only [percentStep] at h
    cases hv1 : hexVal h1 <;> cases hv2 : hexVal h2 <;>
      simp [hv1, hv2] at h
    simp [h.2.symm]

/-- WHATWG percent-decoding: a `%` followed by two hex digits becomes
that byte; any other character, a malformed `%` included, passes through
as its own code point. -/
def percentDecode : List Char → List Nat
  | [] => []
  | c :: rest =>
    if c = '%' then
      match h : percentStep rest with
      | some (b, rest2) => b :: percentDecode rest2
      | none => c.toNat :: percentDecode rest
    else c.toNat :: percentDecode rest
termination_by cs => cs.length
decreasing_by
  · have := percentStep_length _ _ _ h
    simp
    omega
  · simp
  · simp

/-- The `+`-to-space step of the urlencoded parser. -/
def plusToSpace (c : Char) : Char :=
  if c = '+' then ' ' else c

/-- Urlencoded decoding of one key or value component. -/
def decodeComponent (cs : List Char) : List Nat :=
  percentDecode (cs.map plusToSpace)

theorem percentDecode_cons_ne (c : Char) (rest : List Char) (hc : c ≠ '%') :
    percentDecode (c :: rest) = c.toNat :: percentDecode rest := by
  simp [percentDecode, hc]

theorem percentDecode_percent (rest : List Char) (b : Nat) (rest2 : List Char)
    (h : percentStep rest = some (b, rest2)) :
    percentDecode ('%' :: rest) = b :: percentDecode rest2 := by
  simp only [percentDecode]
  split
  · split
    · rename_i b2 rest3 heq
      rw [h] at heq
      injection heq with heq
      cases heq
      rfl
    · rename_i heq
      rw [h] at heq
      exact Option.noConfusion heq
  · rename_i hc
    exact absurd trivial hc

theorem hexVal_hexUpper (n : Nat) (h : n < 16) : hexVal (hexUpper n) = some n := by
  interval_cases n <;> decide

theorem plusToSpace_hexUpper (n : Nat) (h : n < 16) :
    plusToSpace (hexUpper n) = hexUpper n := by
  interval_cases n <;> decide

theorem hexUpper_ne_percent (n : Nat) (h : n < 16) : hexUpper n ≠ '%' := by
  interval_cases n <;> decide

theorem safeByte_facts (b : Nat) (hb : b < 256) :
    isUrlencodedSafe b = true →
      (Char.ofNat b).toNat = b ∧ plusToSpace (Char.ofNat b) = Char.ofNat b ∧
        Char.ofNat b ≠ '%' := by
  interval_cases b <;> decide

/-- Decoding inverts encoding, one byte token at a time: the decoder
consumes exactly the characters the encoder emitted for `b`. -/
theorem decodeComponent_encode_cons (b : Nat) (hb : b < 256) (cs : List Char) :
    percentDecode ((encodeByte b).map plusToSpace ++ cs) =
      b :: percentDecode cs := by
  by_cases h32 : b = 32
  · subst h32
    have : (encodeByte 32).map plusToSpace = [' '] := by decide
    rw [this]
    simpa using percentDecode_cons_ne ' ' cs (by decide)
  · by_cases hsafe : isUrlencodedSafe b
    · obtain ⟨ht, hp, hne⟩ := safeByte_facts b hb hsafe
      simp only [encodeByte, if_neg h32, if_pos hsafe, List.map_cons,
        List.map_nil, hp, List.cons_append, List.nil_append]
      rw [percentDecode_cons_ne _ _ hne, ht]
    · have hd1 : b / 16 < 16 := by omega
      have hd2 : b % 16 < 16 := Nat.mod_lt _ (by omega)
      have hstep : percentStep (hexUpper (b / 16) :: hexUpper (b % 16) :: cs) =
          some (b, cs) := by
        simp [percentStep, hexVal_hexUpper _ hd1, hexVal_hexUpper _ hd2]
        omega
      simp only [encodeByte, if_neg h32, if_neg hsafe, List.map_cons,
        List.map_nil, plusToSpace_hexUpper _ hd1, plusToSpace_hexUpper _ hd2,
        List.cons_append, List.nil_append,
        show plusToSpace '%' = '%' from by decide]
      exact percentDecode_percent _ _ _ hstep

/-- Urlencoded decoding inverts urlencoded serialization on every byte
sequence. -/
theorem decodeComponent_urlencode (bs : List Nat) (h : ∀ b ∈ bs, b < 256) :
    decodeComponent (urlencode bs) = bs := by
  induction bs with
  | nil => simp [decodeComponent, urlencode, percentDecode]
  | cons b bs ih =>
    have hb : b < 256 := h b (List.mem_cons_self _ _)
    have ihr := ih fun x hx => h x (List.mem_cons_of_mem _ hx)
    simp only [urlencode, List.map_cons, List.flatten_cons, decodeComponent,
      List.map_append] at ihr ⊢
    rw [decodeComponent_encode_cons b hb, ihr]

/-- Serialization of one `key=value` pair by the urlencoded serializer. -/
def serializePair (p : List Nat × List Nat) : List Char :=
  urlencode p.1 ++ '=' :: urlencode p.2

/-- Joining serialized pairs with `&`. -/
def joinAmp : List (List Char) → List Char
  | [] => []
  | [p] => p
  | p :: q :: ps => p ++ '&' :: joinAmp (q :: ps)

/-- The query parts of `globalThis.location.href` the helpers touch: the
parameter list (`url.search` / `url.searchParams`), with everything else
(scheme, host, path) opaque.  Keys and values are UTF-8 byte sequences. -/
structure Url where
  base : String
  params : List (List Nat × List Nat)
deriving Repr, DecidableEq

/-- The `?`-prefixed search string `url.toString()` renders, empty when
there are no parameters. -/
def urlSearchOf (u : Url) : List Char :=
  match u.params with
  | [] => []
  | _ => '?' :: joinAmp (u.params.map serializePair)

/-- The UTF-8 bytes of the string `session`. -/
def sessionKey : List Nat := [115, 101, 115, 115, 105, 111, 110]

/-- `buildRedirectUrl` (lines 278–283 of `src/client/shared/utils.ts`):
copy the current location, clear the whole query (`url.search = ''`),
then `url.searchParams.set('session', sessionId)` — the resulting URL
carries the one parameter. -/
def buildRedirectUrl (loc : Url) (sessionId : List Nat) : Url :=
  ⟨loc.base, [(sessionKey, sessionId)]⟩

/-- Dropping the single leading `?` of a search string, as the
`URLSearchParams` constructor does. -/
def stripQuestion : List Char → List Char
  | '?' :: rest => rest
  | cs => cs

/-- Splitting a search body on every `&`. -/
def splitAmp : List Char → List (List Char)
  | [] => [[]]
  | c :: rest =>
    match splitAmp rest with
    | [] => [[c]]
    | p :: ps => if c = '&' then [] :: p :: ps else (c :: p) :: ps

/-- Splitting one piece at its first `=`; a piece without `=` is a key
with an empty value. -/
def splitEqAt : List Char → List Char × List Char
  | [] => ([], [])
  | c :: rest =>
    if c = '=' then ([], rest)
    else (c :: (splitEqAt rest).1, (splitEqAt rest).2)

/-- The WHATWG urlencoded parser behind `new URLSearchParams(search)`:
strip a leading `?`, split on `&`, skip empty pieces, split each piece
at its first `=` and decode both components. -/
def parseSearch (cs : List Char) : List (List Nat × List Nat) :=
  ((splitAmp (stripQuestion cs)).filter fun p => !p.isEmpty).map fun p =>
    (decodeComponent (splitEqAt p).1, decodeComponent (splitEqAt p).2)

/-- First-match parameter lookup, as `URLSearchParams.get` does. -/
def lookupParam : List (List Nat × List Nat) → List Nat → Option (List Nat)
  | [], _ => none
  | p :: ps, k => if p.1 = k then some p.2 else lookupParam ps k

/-- `getSessionFromUrl` (lines 270–273 of `src/client/shared/utils.ts`)
after navigating to a URL with the given search string:
`new URLSearchParams(globalThis.location.search).get('session')`. -/
def getSessionFromUrl (search : List Char) : Option (List Nat) :=
  lookupParam (parseSearch search) sessionKey

theorem encodeByte_no_sep (b : Nat) (hb : b < 256) :
    '&' ∉ encodeByte b ∧ '=' ∉ encodeByte b := by
  interval_cases b <;> decide

theorem urlencode_no_sep (bs : List Nat) (h : ∀ b ∈ bs, b < 256) :
    '&' ∉ urlencode bs ∧ '=' ∉ urlencode bs := by
  induction bs with
  | nil => simp [urlencode]
  | cons b bs ih =>
    have hb := encodeByte_no_sep b (h b (List.mem_cons_self _ _))
    have ihr := ih fun x hx => h x (List.mem_cons_of_mem _ hx)
    simp only [urlencode, List.map_cons, List.flatten_cons, List.mem_append]
    simp only [urlencode] at ihr
    refine ⟨?_, ?_⟩ <;> intro hmem
    · rcases hmem with hm | hm
      · exact hb.1 hm
      · exact ihr.1 hm
    · rcases hmem with hm | hm
      · exact hb.2 hm
      · exact ihr.2 hm

theorem splitAmp_no_amp (l : List Char) (h : '&' ∉ l) : splitAmp l = [l] := by
  induction l with
  | nil => rfl
  | cons c rest ih =>
    have hc : c ≠ '&' := fun hc => h (hc ▸ List.mem_cons_self _ _)
    have ihr := ih fun hm => h (List.mem_cons_of_mem _ hm)
    simp [splitAmp, ihr, hc]

theorem splitEqAt_append (k v : List Char) (hk : '=' ∉ k) :
    splitEqAt (k ++ '=' :: v) = (k, v) := by
  induction k with
  | nil => simp [splitEqAt]
  | cons c rest ih =>
    have hc : c ≠ '=' := fun hc => hk (hc ▸ List.mem_cons_self _ _)
    have ihr := ih fun hm => hk (List.mem_cons_of_mem _ hm)
    simp [splitEqAt, hc, ihr]

/-- C10: for every current location — pre-existing query parameters
included — and every session id (as UTF-8 bytes), the URL built by
`buildRedirectUrl` carries `session` as its only query parameter, and
`getSessionFromUrl` run on that URL's serialized search string recovers
exactly the session id: the round trip through URL encoding is lossless
and the pre-existing parameters are gone. -/
theorem buildRedirectUrl_roundtrip (loc : Url) (sessionId : List Nat)
    (h : ∀ b ∈ sessionId, b < 256) :
    (buildRedirectUrl loc sessionId).params = [(sessionKey, sessionId)] ∧
    parseSearch (urlSearchOf (buildRedirectUrl loc sessionId)) =
      [(sessionKey, sessionId)] ∧
    getSessionFromUrl (urlSearchOf (buildRedirectUrl loc sessionId)) =
      some sessionId := by
  have hkey : ∀ b ∈ sessionKey, b < 256 := by decide
  have hks := urlencode_no_sep sessionKey hkey
  have hvs := urlencode_no_sep sessionId h
  have hser : urlSearchOf (buildRedirectUrl loc sessionId) =
      '?' :: (urlencode sessionKey ++ '=' :: urlencode sessionId) := by
    simp [urlSearchOf, buildRedirectUrl, joinAmp, serializePair]
  have hbody : '&' ∉ urlencode sessionKey ++ '=' :: urlencode sessionId := by
    intro hm
    rcases List.mem_append.mp hm with hm | hm
    · exact hks.1 hm
    · rcases List.mem_cons.mp hm with hm | hm
      · exact absurd hm (by decide)
      · exact hvs.1 hm
  have hparse : parseSearch (urlSearchOf (buildRedirectUrl loc sessionId)) =
      [(sessionKey, sessionId)] := by
    rw [hser]
    simp only [parseSearch]
    rw [show stripQuestion ('?' :: (urlencode sessionKey ++ '=' :: urlencode sessionId)) =
      urlencode sessionKey ++ '=' :: urlencode sessionId from rfl]
    rw [splitAmp_no_amp _ hbody]
    have hne : ((urlencode sessionKey ++ '=' :: urlencode sessionId).isEmpty) = false := by
      simp
    simp only [List.filter, hne, Bool.not_false, List.map_cons, List.map_nil]
    rw [splitEqAt_append _ _ hks.2]
    rw [show (urlencode sessionKey, urlencode sessionId).1 = urlencode sessionKey from rfl,
      show (urlencode sessionKey, urlencode sessionId).2 = urlencode sessionId from rfl]
    rw [decodeComponent_urlencode _ hkey, decodeComponent_urlencode _ h]
  refine ⟨rfl, hparse, ?_⟩
  simp [getSessionFromUrl, hparse, lookupParam]

/-- C10 witness: a location with a stale query parameter and a session
id whose bytes include a space, a slash and a non-ASCII byte. -/
theorem buildRedirectUrl_roundtrip_witness :
    (buildRedirectUrl ⟨"https://shop.example/sports", [([97], [98])]⟩
      [97, 98, 99, 32, 49, 50, 51, 47, 195, 188]).params =
      [(sessionKey, [97, 98, 99, 32, 49, 50, 51, 47, 195, 188])] ∧
    parseSearch (urlSearchOf (buildRedirectUrl ⟨"https://shop.example/sports", [([97], [98])]⟩
      [97, 98, 99, 32, 49, 50, 51, 47, 195, 188])) =
      [(sessionKey, [97, 98, 99, 32, 49, 50, 51, 47, 195, 188])] ∧
    getSessionFromUrl (urlSearchOf (buildRedirectUrl ⟨"https://shop.example/sports", [([97], [98])]⟩
      [97, 98, 99, 32, 49, 50, 51, 47, 195, 188])) =
      some [97, 98, 99, 32, 49, 50, 51, 47, 195, 188] := by
  exact buildRedirectUrl_roundtrip ⟨"https://shop.example/sports", [([97], [98])]⟩
    [97, 98, 99, 32, 49, 50, 51, 47, 195, 188] (by decide)

end Playground
